import Mathlib

/-!
Verification of `sentry.utils.email` (address codec and message builder).

The address codec (`email_to_group_id` / `group_id_to_email`) is embedded
over `List Char`; the Django `Signer` collaborator is parameterised by its
secret-keyed signature function, per the consumed interface described in
the specification.  Fallible operations return `Option`, where `none`
stands for a raised exception (`BadSignature` / `ValueError` /
`AssertionError`).
-/

/-- Decimal digit character for a digit value below ten. -/
def digitChar : Nat → Char
  | 0 => '0'
  | 1 => '1'
  | 2 => '2'
  | 3 => '3'
  | 4 => '4'
  | 5 => '5'
  | 6 => '6'
  | 7 => '7'
  | 8 => '8'
  | 9 => '9'
  | _ => '*'

/-- Digit value of a decimal digit character, `none` otherwise. -/
def charDigit (c : Char) : Option Nat :=
  if '0' ≤ c ∧ c ≤ '9' then some (c.toNat - 48) else none

/-- Big-endian decimal rendering of a positive natural number, with fuel
(the fuel is an upper bound for the number, making the recursion
structural).  Mirrors Python's `str` on non-negative `int`s together with
`natStr` below. -/
def natStrAux : Nat → Nat → List Char
  | 0, _ => []
  | fuel + 1, n =>
    if n = 0 then []
    else natStrAux fuel (n / 10) ++ [digitChar (n % 10)]

/-- Embedding of Python `str(group_id)` for a non-negative integer:
its decimal digit string. -/
def natStr (n : Nat) : List Char :=
  if n = 0 then ['0'] else natStrAux n n

/-- Digit values of a character list, `none` if any character is not a
decimal digit. -/
def parseDigitsAux : List Char → Option (List Nat)
  | [] => some []
  | c :: rest =>
    match charDigit c, parseDigitsAux rest with
    | some d, some ds => some (d :: ds)
    | _, _ => none

/-- Value of a big-endian list of digit values. -/
def ofDigitsBE (ds : List Nat) : Nat :=
  ds.foldl (fun a d => 10 * a + d) 0

/-- Parse a non-empty all-digit character list as a natural number. -/
def parseDigits (s : List Char) : Option Nat :=
  match parseDigitsAux s with
  | none => none
  | some ds => if ds = [] then none else some (ofDigitsBE ds)

/-- Embedding of Python `int(s)` on a string: an optional sign followed by
a non-empty run of decimal digits; anything else raises `ValueError`
(modelled as `none`). -/
def pyInt : List Char → Option Int
  | [] => none
  | c :: rest =>
    if c = '-' then (parseDigits rest).map (fun n => -(n : Int))
    else if c = '+' then (parseDigits rest).map (fun n => (n : Int))
    else (parseDigits (c :: rest)).map (fun n => (n : Int))

/-- Embedding of Python `s.replace(old, new)` for single characters. -/
def replaceChar (old new : Char) (s : List Char) : List Char :=
  s.map (fun c => if c = old then new else c)

/-- Split a list at the LAST occurrence of `c`, returning the parts
before and after it.  Embeds Python `s.rsplit(c, 1)` (with `none` when
`c` does not occur). -/
def rsplitLast (c : Char) : List Char → Option (List Char × List Char)
  | [] => none
  | a :: rest =>
    match rsplitLast c rest with
    | some (v, sg) => some (a :: v, sg)
    | none => if a = c then some ([], rest) else none

/-- Modelled from the spec: the Django `Signer` collaborator is keyed by a
process-wide secret; we abstract it as the signature function it induces
on payload strings (spec section 3, SignedToken). -/
structure SignerCfg where
  sigfn : List Char → List Char

/-- Modelled from the spec: `Signer.sign(value)` produces
`value:signature(value)`, colon-delimited. -/
def SignerCfg.sign (cfg : SignerCfg) (value : List Char) : List Char :=
  value ++ ':' :: cfg.sigfn value

/-- Modelled from the spec: `Signer.unsign(signed)` splits at the last
colon, recomputes the signature of the payload and rejects a mismatch
(`BadSignature`, modelled as `none`). -/
def SignerCfg.unsign (cfg : SignerCfg) (s : List Char) : Option (List Char) :=
  match rsplitLast ':' s with
  | none => none
  | some (value, sg) => if sg = cfg.sigfn value then some value else none

/-- Embedding of `email_to_group_id(address)`: take the part before the
first `@`, put back the signer's `:` delimiter for `+`, unsign, and parse
the payload as an integer. -/
def email_to_group_id (cfg : SignerCfg) (address : List Char) : Option Int :=
  let addr := address.takeWhile (fun c => !(c == '@'))
  let signed_data := replaceChar '+' ':' addr
  (cfg.unsign signed_data).bind pyInt

/-- Embedding of `group_id_to_email(group_id)`: sign the decimal string of
the id, substitute `+` for the signer's `:` delimiter, and append
`@hostname`. -/
def group_id_to_email (cfg : SignerCfg) (hostname : List Char) (group_id : Nat) : List Char :=
  let signed_data := cfg.sign (natStr group_id)
  replaceChar ':' '+' signed_data ++ '@' :: hostname

/-- A signature alphabet free of the characters the codec treats
specially: the signer's delimiter `:`, its substitute `+`, and `@`.
Django's base64-urlsafe HMAC signatures satisfy this. -/
def sigOk (cfg : SignerCfg) : Prop :=
  ∀ v c, c ∈ cfg.sigfn v → c ≠ ':' ∧ c ≠ '+' ∧ c ≠ '@'

/-- Concrete signer used as a witness configuration. -/
def cfg0 : SignerCfg := ⟨fun _ => ['S']⟩

/-- Concrete hostname used as a witness configuration. -/
def host0 : List Char := ['h', 'o', 's', 't']

/-! ### Digit machinery lemmas -/

lemma charDigit_digitChar (d : Nat) (h : d < 10) : charDigit (digitChar d) = some d := by
  interval_cases d <;> decide

lemma digitChar_props (d : Nat) (h : d < 10) :
    digitChar d ≠ ':' ∧ digitChar d ≠ '+' ∧ digitChar d ≠ '@' ∧
    digitChar d ≠ '-' := by
  interval_cases d <;> exact ⟨by decide, by decide, by decide, by decide⟩

lemma natStrAux_zero (fuel : Nat) : natStrAux fuel 0 = [] := by
  cases fuel <;> simp [natStrAux]

lemma natStrAux_mem (fuel n : Nat) :
    ∀ c ∈ natStrAux fuel n, ∃ d, d < 10 ∧ c = digitChar d := by
  induction fuel generalizing n with
  | zero => simp [natStrAux]
  | succ fuel ih =>
    intro c hc
    simp only [natStrAux] at hc
    by_cases h0 : n = 0
    · simp [h0] at hc
    · rw [if_neg h0] at hc
      rcases List.mem_append.mp hc with h | h
      · exact ih (n / 10) c h
      · rcases List.mem_singleton.mp h with rfl
        exact ⟨n % 10, Nat.mod_lt _ (by norm_num), rfl⟩

lemma natStr_mem (n : Nat) :
    ∀ c ∈ natStr n, ∃ d, d < 10 ∧ c = digitChar d := by
  intro c hc
  unfold natStr at hc
  by_cases h0 : n = 0
  · rw [if_pos h0] at hc
    rcases List.mem_singleton.mp hc with rfl
    exact ⟨0, by norm_num, rfl⟩
  · rw [if_neg h0] at hc
    exact natStrAux_mem n n c hc

lemma parseDigitsAux_append (a b : List Char) :
    parseDigitsAux (a ++ b) =
      match parseDigitsAux a, parseDigitsAux b with
      | some x, some y => some (x ++ y)
      | _, _ => none := by
  induction a with
  | nil =>
    simp only [List.nil_append, parseDigitsAux]
    cases parseDigitsAux b <;> rfl
  | cons c rest ih =>
    rcases hc : charDigit c with _ | d <;>
    rcases hr : parseDigitsAux rest with _ | ds <;>
    rcases hb : parseDigitsAux b with _ | es <;>
    simp [parseDigitsAux, ih, hc, hr, hb]

lemma ofDigitsBE_append_singleton (ds : List Nat) (d : Nat) :
    ofDigitsBE (ds ++ [d]) = 10 * ofDigitsBE ds + d := by
  simp [ofDigitsBE, List.foldl_append]

lemma natStrAux_correct (fuel : Nat) :
    ∀ n, 0 < n → n ≤ fuel →
      ∃ ds, parseDigitsAux (natStrAux fuel n) = some ds ∧ ds ≠ [] ∧
        ofDigitsBE ds = n := by
  induction fuel with
  | zero => intro n hn hle; omega
  | succ fuel ih =>
    intro n hn hle
    have hne : n ≠ 0 := Nat.pos_iff_ne_zero.mp hn
    by_cases hq : n / 10 = 0
    · have hlt : n < 10 := by omega
      have : natStrAux (fuel + 1) n = [digitChar (n % 10)] := by
        simp [natStrAux, hne, hq, natStrAux_zero]
      rw [this]
      have hmod : n % 10 = n := Nat.mod_eq_of_lt hlt
      refine ⟨[n % 10], ?_, by simp, by simp [ofDigitsBE, hmod]⟩
      simp [parseDigitsAux, charDigit_digitChar (n % 10) (Nat.mod_lt _ (by norm_num))]
    · have hqpos : 0 < n / 10 := Nat.pos_iff_ne_zero.mpr hq
      have hqle : n / 10 ≤ fuel := by
        have := Nat.div_lt_self hn (by norm_num : 1 < 10)
        omega
      obtain ⟨ds, hds, hne', hval⟩ := ih (n / 10) hqpos hqle
      have : natStrAux (fuel + 1) n = natStrAux fuel (n / 10) ++ [digitChar (n % 10)] := by
        simp [natStrAux, hne]
      rw [this, parseDigitsAux_append, hds]
      have hd : parseDigitsAux [digitChar (n % 10)] = some [n % 10] := by
        simp [parseDigitsAux, charDigit_digitChar (n % 10) (Nat.mod_lt _ (by norm_num))]
      rw [hd]
      refine ⟨ds ++ [n % 10], rfl, by simp, ?_⟩
      rw [ofDigitsBE_append_singleton, hval]
      omega

lemma parseDigits_natStr (n : Nat) : parseDigits (natStr n) = some n := by
  by_cases h0 : n = 0
  · subst h0; decide
  · have hn : 0 < n := Nat.pos_iff_ne_zero.mpr h0
    obtain ⟨ds, hds, hne, hval⟩ := natStrAux_correct n n hn le_rfl
    unfold natStr
    rw [if_neg h0]
    unfold parseDigits
    rw [hds]
    simp [hne, hval]

lemma natStr_ne_nil (n : Nat) : natStr n ≠ [] := by
  by_cases h0 : n = 0
  · subst h0; decide
  · have hn : 0 < n := Nat.pos_iff_ne_zero.mpr h0
    obtain ⟨ds, hds, hne, _⟩ := natStrAux_correct n n hn le_rfl
    unfold natStr
    rw [if_neg h0]
    intro h
    rw [h] at hds
    simp [parseDigitsAux] at hds
    exact hne hds

lemma pyInt_natStr (n : Nat) : pyInt (natStr n) = some (n : Int) := by
  obtain ⟨c, rest, hcr⟩ := List.exists_cons_of_ne_nil (natStr_ne_nil n)
  obtain ⟨d, hd, hcd⟩ := natStr_mem n c (by rw [hcr]; exact List.mem_cons_self _ _)
  obtain ⟨_, hplus, _, hminus⟩ := digitChar_props d hd
  subst hcd
  rw [hcr]
  simp only [pyInt]
  rw [if_neg hminus, if_neg hplus, ← hcr, parseDigits_natStr]
  rfl


/-! ### Character substitution and splitting lemmas -/

lemma replaceChar_id (old new : Char) (s : List Char) (h : old ∉ s) :
    replaceChar old new s = s := by
  induction s with
  | nil => rfl
  | cons c rest ih =>
    have hc : c ≠ old := by
      intro hco
      exact h (by rw [hco]; exact List.mem_cons_self _ _)
    have h' : old ∉ rest := fun hm => h (List.mem_cons_of_mem _ hm)
    show (if c = old then new else c) :: replaceChar old new rest = c :: rest
    rw [if_neg hc, ih h']

lemma mem_replaceChar (old new c : Char) (s : List Char)
    (h : c ∈ replaceChar old new s) : c ∈ s ∨ c = new := by
  rcases List.mem_map.mp h with ⟨a, ha, hac⟩
  by_cases hao : a = old
  · right; rw [← hac, if_pos hao]
  · left; rw [← hac, if_neg hao]; exact ha

lemma replaceChar_append (old new : Char) (a b : List Char) :
    replaceChar old new (a ++ b) = replaceChar old new a ++ replaceChar old new b := by
  simp [replaceChar]

lemma replaceChar_cons_self (old new : Char) (s : List Char) :
    replaceChar old new (old :: s) = new :: replaceChar old new s := by
  simp [replaceChar]

lemma replaceChar_undo (s : List Char) (h : '+' ∉ s) :
    replaceChar '+' ':' (replaceChar ':' '+' s) = s := by
  induction s with
  | nil => rfl
  | cons c rest ih =>
    have hc : c ≠ '+' := by
      intro hco
      exact h (by rw [hco]; exact List.mem_cons_self _ _)
    have ih' := ih (fun hm => h (List.mem_cons_of_mem _ hm))
    by_cases hcolon : c = ':'
    · subst hcolon
      rw [replaceChar_cons_self, replaceChar_cons_self, ih']
    · show replaceChar '+' ':' ((if c = ':' then '+' else c) :: replaceChar ':' '+' rest) = _
      rw [if_neg hcolon]
      show (if c = '+' then ':' else c) :: replaceChar '+' ':' (replaceChar ':' '+' rest) = _
      rw [if_neg hc, ih']

lemma takeWhile_append_stop (a rest : List Char) (x : Char) (p : Char → Bool)
    (ha : ∀ c ∈ a, p c = true) (hx : p x = false) :
    (a ++ x :: rest).takeWhile p = a := by
  induction a with
  | nil => simp [List.takeWhile_cons, hx]
  | cons c t ih =>
    have hc : p c = true := ha c (List.mem_cons_self _ _)
    have ih' := ih (fun d hd => ha d (List.mem_cons_of_mem _ hd))
    rw [List.cons_append, List.takeWhile_cons_of_pos hc, ih']

lemma rsplitLast_none (c : Char) (s : List Char) (h : c ∉ s) :
    rsplitLast c s = none := by
  induction s with
  | nil => rfl
  | cons a rest ih =>
    have ha : a ≠ c := by
      intro hac
      exact h (by rw [hac]; exact List.mem_cons_self _ _)
    simp only [rsplitLast, ih (fun hm => h (List.mem_cons_of_mem _ hm))]
    rw [if_neg ha]

lemma rsplitLast_isSome (c : Char) (s : List Char) (h : c ∈ s) :
    (rsplitLast c s).isSome = true := by
  induction s with
  | nil => simp at h
  | cons a rest ih =>
    by_cases hm : c ∈ rest
    · have hs := ih hm
      rcases ho : rsplitLast c rest with _ | ⟨v, sg⟩
      · rw [ho] at hs; simp at hs
      · simp [rsplitLast, ho]
    · have hac : a = c := by
        rcases List.mem_cons.mp h with h1 | h1
        · exact h1.symm
        · exact absurd h1 hm
      simp [rsplitLast, rsplitLast_none c rest hm, hac]

lemma rsplitLast_some (c : Char) (s v sg : List Char)
    (h : rsplitLast c s = some (v, sg)) : s = v ++ c :: sg ∧ c ∉ sg := by
  induction s generalizing v sg with
  | nil => exact absurd h (by simp [rsplitLast])
  | cons a rest ih =>
    rcases hr : rsplitLast c rest with _ | ⟨v', sg'⟩
    · by_cases hac : a = c
      · simp only [rsplitLast, hr, if_pos hac] at h
        simp only [Option.some.injEq, Prod.mk.injEq] at h
        obtain ⟨h1, h2⟩ := h
        subst h1; subst h2
        refine ⟨by rw [hac]; rfl, ?_⟩
        intro hmem
        have hs := rsplitLast_isSome c _ hmem
        rw [hr] at hs
        simp at hs
      · exact absurd h (by simp [rsplitLast, hr, hac])
    · simp only [rsplitLast, hr, Option.some.injEq, Prod.mk.injEq] at h
      obtain ⟨h1, h2⟩ := h
      subst h1; subst h2
      rcases ih v' sg' hr with ⟨hrest, hnot⟩
      exact ⟨by rw [hrest, List.cons_append], hnot⟩

lemma rsplitLast_sign (c : Char) (v sg : List Char) (h : c ∉ sg) :
    rsplitLast c (v ++ c :: sg) = some (v, sg) := by
  induction v with
  | nil => simp [rsplitLast, rsplitLast_none c sg h]
  | cons a t ih =>
    rw [List.cons_append]
    simp only [rsplitLast, ih]

lemma mem_replaceChar_src (old new c : Char) (s : List Char)
    (h : c ∈ replaceChar old new s) : c ∈ s ∨ old ∈ s := by
  rcases List.mem_map.mp h with ⟨a, ha, hac⟩
  by_cases hao : a = old
  · right; exact hao ▸ ha
  · left; rw [← hac, if_neg hao]; exact ha

lemma natStr_avoid (n : Nat) :
    ':' ∉ natStr n ∧ '+' ∉ natStr n ∧ '@' ∉ natStr n := by
  refine ⟨?_, ?_, ?_⟩ <;> intro hmem
  · obtain ⟨d, hd, hcd⟩ := natStr_mem n _ hmem
    exact (digitChar_props d hd).1 hcd.symm
  · obtain ⟨d, hd, hcd⟩ := natStr_mem n _ hmem
    exact (digitChar_props d hd).2.1 hcd.symm
  · obtain ⟨d, hd, hcd⟩ := natStr_mem n _ hmem
    exact (digitChar_props d hd).2.2.1 hcd.symm

lemma decode_local (cfg : SignerCfg) (host loc : List Char) (hat : '@' ∉ loc) :
    email_to_group_id cfg (loc ++ '@' :: host)
      = (cfg.unsign (replaceChar '+' ':' loc)).bind pyInt := by
  simp only [email_to_group_id]
  have ha : ∀ c ∈ loc, (!(c == '@')) = true := by
    intro c hc
    have hne : c ≠ '@' := fun h => hat (h ▸ hc)
    simp [hne]
  have hx : (!(('@' : Char) == '@')) = false := by decide
  rw [takeWhile_append_stop loc host '@' _ ha hx]

lemma decode_encodeRaw (cfg : SignerCfg) (host v : List Char) (hOk : sigOk cfg)
    (hvp : '+' ∉ v) (hva : '@' ∉ v) :
    email_to_group_id cfg (replaceChar ':' '+' (cfg.sign v) ++ '@' :: host) = pyInt v := by
  have hsig_colon : ':' ∉ cfg.sigfn v := fun hm => (hOk v ':' hm).1 rfl
  have hsig_plus : '+' ∉ cfg.sigfn v := fun hm => (hOk v '+' hm).2.1 rfl
  have hsig_at : '@' ∉ cfg.sigfn v := fun hm => (hOk v '@' hm).2.2 rfl
  have hloc : replaceChar ':' '+' (cfg.sign v)
      = replaceChar ':' '+' v ++ '+' :: cfg.sigfn v := by
    simp only [SignerCfg.sign]
    rw [replaceChar_append, replaceChar_cons_self, replaceChar_id _ _ _ hsig_colon]
  have hat : '@' ∉ replaceChar ':' '+' v ++ '+' :: cfg.sigfn v := by
    intro hm
    rcases List.mem_append.mp hm with hm | hm
    · rcases mem_replaceChar _ _ _ _ hm with hm' | hm'
      · exact hva hm'
      · exact absurd hm' (by decide)
    · rcases List.mem_cons.mp hm with hm' | hm'
      · exact absurd hm' (by decide)
      · exact hsig_at hm'
  rw [hloc, decode_local cfg host _ hat]
  have hback : replaceChar '+' ':' (replaceChar ':' '+' v ++ '+' :: cfg.sigfn v)
      = v ++ ':' :: cfg.sigfn v := by
    rw [replaceChar_append, replaceChar_cons_self, replaceChar_undo v hvp,
      replaceChar_id _ _ _ hsig_plus]
  rw [hback]
  simp only [SignerCfg.unsign, rsplitLast_sign ':' v (cfg.sigfn v) hsig_colon]
  simp

/-- C1: round-trip of the address codec — for every non-negative integer
`g`, decoding the address produced by encoding `g` returns exactly `g`
(for any fixed signer whose signature alphabet avoids the codec's special
characters, as Django's does, and any hostname). -/
theorem C1_roundtrip (cfg : SignerCfg) (hostname : List Char) (h : sigOk cfg) (g : Nat) :
    email_to_group_id cfg (group_id_to_email cfg hostname g) = some (g : Int) := by
  have h1 : group_id_to_email cfg hostname g
      = replaceChar ':' '+' (cfg.sign (natStr g)) ++ '@' :: hostname := rfl
  rw [h1, decode_encodeRaw cfg hostname (natStr g) h (natStr_avoid g).2.1 (natStr_avoid g).2.2,
    pyInt_natStr]

/-- Witness: the round-trip theorem applied to the concrete signer `cfg0`,
hostname `host0` and group id 42. -/
theorem C1_roundtrip_witness :
    email_to_group_id cfg0 (group_id_to_email cfg0 host0 42) = some (42 : Int) :=
  C1_roundtrip cfg0 host0
    (by
      intro v c hc
      simp only [cfg0] at hc
      rcases List.mem_singleton.mp hc with rfl
      exact ⟨by decide, by decide, by decide⟩)
    42

/-- C5: wire format and delimiter safety — `group_id_to_email g` is
`<payload>+<signature>@<hostname>` with `+` substituted for the signer's
`:` delimiter, and the local-part contains no `:`. -/
theorem C5_wire_format (cfg : SignerCfg) (host : List Char) (h : sigOk cfg) (g : Nat) :
    group_id_to_email cfg host g = (natStr g ++ '+' :: cfg.sigfn (natStr g)) ++ '@' :: host
    ∧ ':' ∉ natStr g ++ '+' :: cfg.sigfn (natStr g) := by
  constructor
  · have h1 : group_id_to_email cfg host g
        = replaceChar ':' '+' (cfg.sign (natStr g)) ++ '@' :: host := rfl
    rw [h1]
    simp only [SignerCfg.sign]
    rw [replaceChar_append, replaceChar_cons_self,
      replaceChar_id _ _ _ (natStr_avoid g).1,
      replaceChar_id _ _ _ (fun hm => (h (natStr g) ':' hm).1 rfl)]
  · intro hm
    rcases List.mem_append.mp hm with hm | hm
    · exact (natStr_avoid g).1 hm
    · rcases List.mem_cons.mp hm with hm' | hm'
      · exact absurd hm' (by decide)
      · exact (h (natStr g) ':' hm').1 rfl

/-- Witness: the wire-format theorem applied to the concrete signer `cfg0`,
hostname `host0` and group id 12. -/
theorem C5_wire_format_witness :
    group_id_to_email cfg0 host0 12
        = (natStr 12 ++ '+' :: cfg0.sigfn (natStr 12)) ++ '@' :: host0
    ∧ ':' ∉ natStr 12 ++ '+' :: cfg0.sigfn (natStr 12) :=
  C5_wire_format cfg0 host0
    (by
      intro v c hc
      simp only [cfg0] at hc
      rcases List.mem_singleton.mp hc with rfl
      exact ⟨by decide, by decide, by decide⟩)
    12

/-- C2: decode failure is always surfaced, never defaulted.  (i) A
successful decode returns only the integer of a properly signed payload:
the delimiter-restored local-part IS `sign(v)` for a payload `v` parsing
to the returned id.  (ii) A local-part with no delimiter at all fails.
(iii) A signed payload that is not a valid integer fails.  (iv) Tampering
with the signature portion of an encoded address (any replacement
signature over the signature alphabet that differs from the true one)
fails. -/
theorem C2_decode_failure_surfaced (cfg : SignerCfg) (host : List Char) :
    (∀ addr n, email_to_group_id cfg addr = some n →
        ∃ v, replaceChar '+' ':' (addr.takeWhile (fun c => !(c == '@'))) = cfg.sign v ∧
          pyInt v = some n)
    ∧ (∀ addr, '+' ∉ addr.takeWhile (fun c => !(c == '@')) →
        ':' ∉ addr.takeWhile (fun c => !(c == '@')) →
        email_to_group_id cfg addr = none)
    ∧ (sigOk cfg → ∀ v, pyInt v = none → '+' ∉ v → '@' ∉ v →
        email_to_group_id cfg (replaceChar ':' '+' (cfg.sign v) ++ '@' :: host) = none)
    ∧ (sigOk cfg → ∀ g sg, sg ≠ cfg.sigfn (natStr g) → ':' ∉ sg → '+' ∉ sg → '@' ∉ sg →
        email_to_group_id cfg ((natStr g ++ '+' :: sg) ++ '@' :: host) = none) := by
  refine ⟨?_, ?_, ?_, ?_⟩
  · intro addr n h
    simp only [email_to_group_id] at h
    rcases Option.bind_eq_some.mp h with ⟨v, hu, hp⟩
    refine ⟨v, ?_, hp⟩
    simp only [SignerCfg.unsign] at hu
    rcases hs : rsplitLast ':' (replaceChar '+' ':'
        (addr.takeWhile (fun c => !(c == '@')))) with _ | ⟨val, sg⟩
    · rw [hs] at hu; exact absurd hu (by simp)
    · rw [hs] at hu
      dsimp only at hu
      by_cases hsig : sg = cfg.sigfn val
      · rw [if_pos hsig] at hu
        rcases Option.some_inj.mp hu with rfl
        rcases rsplitLast_some ':' _ val sg hs with ⟨heq, _⟩
        rw [heq, hsig]
        rfl
      · rw [if_neg hsig] at hu
        exact absurd hu (by simp)
  · intro addr hplus hcolon
    simp only [email_to_group_id, SignerCfg.unsign]
    have hnc : ':' ∉ replaceChar '+' ':' (addr.takeWhile (fun c => !(c == '@'))) := by
      intro hm
      rcases mem_replaceChar_src _ _ _ _ hm with hm' | hm'
      · exact hcolon hm'
      · exact hplus hm'
    rw [rsplitLast_none ':' _ hnc]
    rfl
  · intro hOk v hv hvp hva
    rw [decode_encodeRaw cfg host v hOk hvp hva]
    exact hv
  · intro hOk g sg hne hc hp ha
    have hat : '@' ∉ natStr g ++ '+' :: sg := by
      intro hm
      rcases List.mem_append.mp hm with hm' | hm'
      · exact (natStr_avoid g).2.2 hm'
      · rcases List.mem_cons.mp hm' with hm'' | hm''
        · exact absurd hm'' (by decide)
        · exact ha hm''
    rw [decode_local cfg host _ hat]
    have hback : replaceChar '+' ':' (natStr g ++ '+' :: sg) = natStr g ++ ':' :: sg := by
      rw [replaceChar_append, replaceChar_cons_self,
        replaceChar_id _ _ _ (natStr_avoid g).2.1, replaceChar_id _ _ _ hp]
    rw [hback]
    simp only [SignerCfg.unsign, rsplitLast_sign ':' (natStr g) sg hc]
    rw [if_neg hne]
    rfl

/-- Witness: decode failure surfaced at concrete inputs — an address with
no delimiter in the local-part, and an encoded address whose signature
was replaced by a wrong one, both decode to `none` under `cfg0`. -/
theorem C2_decode_failure_surfaced_witness :
    email_to_group_id cfg0 ['a', 'b', 'c'] = none
    ∧ email_to_group_id cfg0 ((natStr 7 ++ '+' :: ['X']) ++ '@' :: host0) = none :=
  ⟨(C2_decode_failure_surfaced cfg0 host0).2.1 ['a', 'b', 'c'] (by decide) (by decide),
   (C2_decode_failure_surfaced cfg0 host0).2.2.2
     (by
       intro v c hc
       simp only [cfg0] at hc
       rcases List.mem_singleton.mp hc with rfl
       exact ⟨by decide, by decide, by decide⟩)
     7 ['X'] (by decide) (by decide) (by decide) (by decide)⟩

/-!
### Message builder

Embedding of `MessageBuilder`.  Python truthiness drives the constructor
assertions and the body-resolution branches, so optional strings and
mappings carry explicit truthiness tests.  A failed `assert` in
`__init__` is modelled as `none`.
-/

/-- Header mapping: ordered name/value pairs (a Python `dict`). -/
abbrev Headers := List (String × String)

/-- Python truthiness of an optional string (`None` and `""` are falsy). -/
def truthy : Option String → Bool
  | none => false
  | some s => !(s == "")

/-- Python truthiness of an optional mapping (`None` and `{}` are falsy). -/
def truthyMap : Option (List (String × String)) → Bool
  | none => false
  | some l => !l.isEmpty

/-- The state a `MessageBuilder` holds after a successful `__init__`. -/
structure MessageBuilder where
  subject : String
  context : List (String × String)
  template : Option String
  html_template : Option String
  body : Option String
  html_body : Option String
  headers : Option Headers

/-- Embedding of `MessageBuilder.__init__`: the three constructor
assertions in source order (`not (body and template)`,
`not (html_body and html_template)`, `context or not (template or
html_template)`), then the field assignments (`self.context = context or
\x7b\x7d`). -/
def mkMessageBuilder (subject : String) (context : Option (List (String × String)))
    (template html_template body html_body : Option String)
    (headers : Option Headers) : Option MessageBuilder :=
  if truthy body && truthy template then none
  else if truthy html_body && truthy html_template then none
  else if !truthyMap context && (truthy template || truthy html_template) then none
  else some
    { subject := subject
      context := context.getD []
      template := template
      html_template := html_template
      body := body
      html_body := html_body
      headers := headers }

/-- Deployment-wide configuration and collaborators consumed by `build`:
the `SENTRY_ENABLE_EMAIL_REPLIES` flag, `settings.SERVER_EMAIL`, the
template-rendering collaborator `render_to_string`, and the CSS-inlining
collaborator (`UnicodeSafePynliner().from_string(...).run()`). -/
structure BuildConfig where
  enableReplies : Bool
  serverEmail : String
  render : String → List (String × String) → String
  inlineCss : String → String

/-- First value bound to a header name in a mapping (dict lookup). -/
def getHeader : Headers → String → Option String
  | [], _ => none
  | (k, v) :: rest, key => if k = key then some v else getHeader rest key

/-- Embedding of `dict.setdefault(key, value)`: insert only when absent. -/
def setdefault (hs : Headers) (k v : String) : Headers :=
  if (getHeader hs k).isSome then hs else hs ++ [(k, v)]

/-- The headers `build` starts from: the configured mapping, or empty
when `self.headers is None`. -/
def MessageBuilder.effHeaders (mb : MessageBuilder) : Headers :=
  match mb.headers with
  | none => []
  | some h => h

/-- The transport-ready message handed to `EmailMultiAlternatives` (plus
the alternatives attached afterwards). -/
structure EmailMessage where
  subject : String
  body : Option String
  from_email : String
  to_list : List String
  headers : Headers
  alternatives : List (String × String)

/-- Embedding of `MessageBuilder.build(to)`: copy the headers, determine
`Reply-To` (the caller's `X-Sentry-Reply-To` header when email replies
are enabled and it is present, else the comma-joined recipients) with
set-if-absent semantics, resolve each body from its template or raw
value, and attach the inlined HTML alternative when the HTML body is
truthy. -/
def MessageBuilder.build (cfg : BuildConfig) (mb : MessageBuilder) (recipients : List String) :
    EmailMessage :=
  let headers0 := mb.effHeaders
  let reply_to :=
    if cfg.enableReplies && (getHeader headers0 "X-Sentry-Reply-To").isSome then
      (getHeader headers0 "X-Sentry-Reply-To").getD ""
    else
      String.intercalate ", " recipients
  let headers1 := setdefault headers0 "Reply-To" reply_to
  let txt_body :=
    if truthy mb.template then some (cfg.render (mb.template.getD "") mb.context)
    else mb.body
  let html_body :=
    if truthy mb.html_template then some (cfg.render (mb.html_template.getD "") mb.context)
    else mb.html_body
  { subject := mb.subject
    body := txt_body
    from_email := cfg.serverEmail
    to_list := recipients
    headers := headers1
    alternatives :=
      if truthy html_body then [(cfg.inlineCss (html_body.getD ""), "text/html")]
      else [] }

/-- Modelled from the spec: the delivery collaborator
`msg.send(fail_silently=...)` — delivery may raise, and the error is
suppressed exactly when `fail_silently` is set (spec section 6). -/
def deliverWith (deliver : EmailMessage → Except String Unit) (msg : EmailMessage)
    (fail_silently : Bool) : Except String Unit :=
  match deliver msg with
  | Except.ok _ => Except.ok ()
  | Except.error e => if fail_silently then Except.ok () else Except.error e

/-- Embedding of `MessageBuilder.send(to, fail_silently)`: build, then
hand the message to the delivery collaborator. -/
def MessageBuilder.send (cfg : BuildConfig) (deliver : EmailMessage → Except String Unit)
    (mb : MessageBuilder) (recipients : List String) (fail_silently : Bool) : Except String Unit :=
  deliverWith deliver (mb.build cfg recipients) fail_silently

/-! ### Header-mapping lemmas -/

lemma getHeader_append (a b : Headers) (k : String) :
    getHeader (a ++ b) k =
      match getHeader a k with
      | some v => some v
      | none => getHeader b k := by
  induction a with
  | nil => simp [getHeader]
  | cons p rest ih =>
    rcases p with ⟨k', v'⟩
    by_cases hk : k' = k
    · simp [getHeader, hk]
    · simp only [List.cons_append, getHeader, if_neg hk]
      exact ih

lemma getHeader_setdefault_absent (hs : Headers) (k v : String)
    (h : getHeader hs k = none) :
    getHeader (setdefault hs k v) k = some v := by
  unfold setdefault
  rw [if_neg (by simp [h]), getHeader_append, h]
  simp [getHeader]

lemma setdefault_decomp (hs : Headers) (k v : String) :
    setdefault hs k v = hs ++ [] ∨ setdefault hs k v = hs ++ [(k, v)] := by
  unfold setdefault
  by_cases h : (getHeader hs k).isSome
  · left; simp [h]
  · right; simp [h]

lemma getHeader_setdefault_present (hs : Headers) (k v v0 : String)
    (h : getHeader hs k = some v0) :
    getHeader (setdefault hs k v) k = some v0 := by
  simp [setdefault, h]

lemma build_headers_eq (cfg : BuildConfig) (mb : MessageBuilder) (recipients : List String) :
    (mb.build cfg recipients).headers
      = setdefault mb.effHeaders "Reply-To"
          (if cfg.enableReplies && (getHeader mb.effHeaders "X-Sentry-Reply-To").isSome then
            (getHeader mb.effHeaders "X-Sentry-Reply-To").getD ""
          else String.intercalate ", " recipients) := rfl

lemma build_headers_decomp (cfg : BuildConfig) (mb : MessageBuilder)
    (recipients : List String) :
    ∃ t, (mb.build cfg recipients).headers = mb.effHeaders ++ t
      ∧ (t = [] ∨ ∃ r, t = [("Reply-To", r)]) := by
  rw [build_headers_eq]
  rcases setdefault_decomp mb.effHeaders "Reply-To"
      (if cfg.enableReplies && (getHeader mb.effHeaders "X-Sentry-Reply-To").isSome then
        (getHeader mb.effHeaders "X-Sentry-Reply-To").getD ""
      else String.intercalate ", " recipients) with h | h
  · exact ⟨[], h, Or.inl rfl⟩
  · exact ⟨[("Reply-To", _)], h, Or.inr ⟨_, rfl⟩⟩

/-! ### Builder claim theorems -/

/-- Concrete build configuration for witnesses (replies enabled). -/
def cfg0b : BuildConfig :=
  { enableReplies := true
    serverEmail := "root@localhost"
    render := fun t _ => t
    inlineCss := fun s => s }

/-- Concrete builder with a raw body, no templates and no headers. -/
def mb0 : MessageBuilder :=
  { subject := "s"
    context := []
    template := none
    html_template := none
    body := some "hello"
    html_body := none
    headers := none }

/-- Concrete builder carrying an `X-Sentry-Reply-To` header. -/
def mbX : MessageBuilder :=
  { mb0 with headers := some [("X-Sentry-Reply-To", "x@y"), ("Other", "o")] }

/-- Concrete builder whose headers already contain `Reply-To`. -/
def mbR : MessageBuilder :=
  { mb0 with headers := some [("Reply-To", "keep@me")] }

/-- C3: builder exclusivity — supplying both a (truthy) `body` and
`template` makes construction fail immediately with an assertion error
(`none`); likewise for `html_body` and `html_template`. -/
theorem C3_builder_exclusivity (subject : String) (context : Option (List (String × String)))
    (template html_template body html_body : Option String) (headers : Option Headers) :
    (truthy body = true → truthy template = true →
      mkMessageBuilder subject context template html_template body html_body headers = none)
    ∧ (truthy html_body = true → truthy html_template = true →
      mkMessageBuilder subject context template html_template body html_body headers = none) := by
  constructor
  · intro h1 h2
    simp [mkMessageBuilder, h1, h2]
  · intro h1 h2
    cases hbt : (truthy body && truthy template) <;>
      simp [mkMessageBuilder, hbt, h1, h2]

/-- Witness: constructing with both a raw text body and a text template,
and constructing with both a raw HTML body and an HTML template, each
fail at construction. -/
theorem C3_builder_exclusivity_witness :
    mkMessageBuilder "s" (some [("k", "v")]) (some "t.txt") none (some "b") none none = none
    ∧ mkMessageBuilder "s" (some [("k", "v")]) none (some "t.html") none (some "<b>") none
        = none :=
  ⟨(C3_builder_exclusivity "s" (some [("k", "v")]) (some "t.txt") none (some "b") none
      none).1 (by decide) (by decide),
   (C3_builder_exclusivity "s" (some [("k", "v")]) none (some "t.html") none (some "<b>")
      none).2 (by decide) (by decide)⟩

/-- C8: a template without a (truthy) context fails at construction; a
template accompanied by a non-empty context constructs successfully. -/
theorem C8_template_requires_context :
    (∀ (subject : String) (context : Option (List (String × String)))
        (template html_template body html_body : Option String) (headers : Option Headers),
      (truthy template = true ∨ truthy html_template = true) →
      truthyMap context = false →
      mkMessageBuilder subject context template html_template body html_body headers = none)
    ∧ (∀ (subject : String) (headers : Option Headers) (tname : String)
        (ctx : List (String × String)),
      tname ≠ "" → ctx ≠ [] →
      (mkMessageBuilder subject (some ctx) (some tname) none none none headers).isSome
        = true) := by
  constructor
  · intro subject context template html_template body html_body headers hdisj hctx
    cases hb1 : (truthy body && truthy template)
    · cases hb2 : (truthy html_body && truthy html_template)
      · rcases hdisj with h | h <;> simp [mkMessageBuilder, hb1, hb2, hctx, h]
      · simp [mkMessageBuilder, hb1, hb2]
    · simp [mkMessageBuilder, hb1]
  · intro subject headers tname ctx htn hctx
    rcases ctx with _ | ⟨p, rest⟩
    · exact absurd rfl hctx
    · simp [mkMessageBuilder, truthy, truthyMap]

/-- Witness: a text template with an empty context dict fails, an HTML
template with no context fails, and a template with a non-empty context
constructs. -/
theorem C8_template_requires_context_witness :
    mkMessageBuilder "s" (some []) (some "t.txt") none none none none = none
    ∧ mkMessageBuilder "s" none none (some "t.html") none none none = none
    ∧ (mkMessageBuilder "s" (some [("k", "v")]) (some "t.txt") none none none none).isSome
        = true :=
  ⟨C8_template_requires_context.1 "s" (some []) (some "t.txt") none none none none
      (Or.inl (by decide)) (by decide),
   C8_template_requires_context.1 "s" none none (some "t.html") none none none
      (Or.inr (by decide)) (by decide),
   C8_template_requires_context.2 "s" none "t.txt" [("k", "v")] (by decide) (by decide)⟩

/-- C4: Reply-To determination — when `Reply-To` is absent from the
configured headers, the built message's `Reply-To` is the caller's
`X-Sentry-Reply-To` value if email replies are enabled and that header is
present, and the comma-joined recipient list otherwise; when `Reply-To`
is already present it is left untouched (set-if-absent). -/
theorem C4_reply_to (cfg : BuildConfig) (mb : MessageBuilder) (recipients : List String) :
    (getHeader mb.effHeaders "Reply-To" = none →
      ((∀ v, cfg.enableReplies = true →
          getHeader mb.effHeaders "X-Sentry-Reply-To" = some v →
          getHeader (mb.build cfg recipients).headers "Reply-To" = some v)
       ∧ ((cfg.enableReplies = false ∨ getHeader mb.effHeaders "X-Sentry-Reply-To" = none) →
          getHeader (mb.build cfg recipients).headers "Reply-To"
            = some (String.intercalate ", " recipients))))
    ∧ (∀ v0, getHeader mb.effHeaders "Reply-To" = some v0 →
        getHeader (mb.build cfg recipients).headers "Reply-To" = some v0) := by
  constructor
  · intro habs
    constructor
    · intro v hen hx
      rw [build_headers_eq, getHeader_setdefault_absent _ _ _ habs]
      simp [hen, hx]
    · intro hdisj
      rw [build_headers_eq, getHeader_setdefault_absent _ _ _ habs]
      rcases hdisj with hoff | hxnone
      · simp [hoff]
      · simp [hxnone]
  · intro v0 h
    rw [build_headers_eq]
    exact getHeader_setdefault_present _ _ _ _ h

/-- Witness: with no headers `build(["a", "b"])` yields
`Reply-To: a, b`; with replies enabled and `X-Sentry-Reply-To` supplied
the built `Reply-To` is its value; a pre-existing `Reply-To` survives. -/
theorem C4_reply_to_witness :
    getHeader (mb0.build cfg0b ["a", "b"]).headers "Reply-To" = some "a, b"
    ∧ getHeader (mbX.build cfg0b ["a"]).headers "Reply-To" = some "x@y"
    ∧ getHeader (mbR.build cfg0b ["a"]).headers "Reply-To" = some "keep@me" :=
  ⟨((C4_reply_to cfg0b mb0 ["a", "b"]).1 rfl).2 (Or.inr rfl),
   ((C4_reply_to cfg0b mbX ["a"]).1 rfl).1 "x@y" rfl rfl,
   (C4_reply_to cfg0b mbR ["a"]).2 "keep@me" rfl⟩

/-- C9: a builder may be constructed with neither a raw body nor a
template for a part; such a build succeeds with an absent (`None`) text
body, and whenever the HTML part resolves to a falsy (absent or empty)
value no HTML alternative is attached at all. -/
theorem C9_absent_parts (cfg : BuildConfig) (subject : String) (headers : Option Headers)
    (recipients : List String) :
    (∃ mb, mkMessageBuilder subject none none none none none headers = some mb
      ∧ (mb.build cfg recipients).body = none
      ∧ (mb.build cfg recipients).alternatives = [])
    ∧ (∀ mb : MessageBuilder, truthy mb.html_template = false →
        truthy mb.html_body = false →
        (mb.build cfg recipients).alternatives = []) := by
  constructor
  · exact ⟨_, rfl, rfl, rfl⟩
  · intro mb h1 h2
    simp only [MessageBuilder.build, h1, Bool.false_eq_true, if_false, h2]

/-- Witness: the second part of the absent-parts theorem applied to a
builder whose HTML body is the empty string (falsy): no alternative is
attached. -/
theorem C9_absent_parts_witness :
    (({ mb0 with html_body := some "" } : MessageBuilder).build cfg0b ["a"]).alternatives
      = [] :=
  (C9_absent_parts cfg0b "s" none ["a"]).2 { mb0 with html_body := some "" }
    (by decide) (by decide)

/-- C10: frame property of `build` on headers — every configured header
pair appears unchanged in the built message, lookups of any name other
than `Reply-To` are unchanged, and in particular a configured
`X-Sentry-Reply-To` header is still present in the output. -/
theorem C10_frame_headers (cfg : BuildConfig) (mb : MessageBuilder)
    (recipients : List String) :
    (∀ p, p ∈ mb.effHeaders → p ∈ (mb.build cfg recipients).headers)
    ∧ (∀ k, k ≠ "Reply-To" →
        getHeader (mb.build cfg recipients).headers k = getHeader mb.effHeaders k)
    ∧ (∀ v, getHeader mb.effHeaders "X-Sentry-Reply-To" = some v →
        getHeader (mb.build cfg recipients).headers "X-Sentry-Reply-To" = some v) := by
  obtain ⟨t, ht, hform⟩ := build_headers_decomp cfg mb recipients
  have h2 : ∀ k, k ≠ "Reply-To" →
      getHeader (mb.build cfg recipients).headers k = getHeader mb.effHeaders k := by
    intro k hk
    rw [ht, getHeader_append]
    have htk : getHeader t k = none := by
      rcases hform with rfl | ⟨r, rfl⟩
      · rfl
      · simp only [getHeader]
        rw [if_neg (fun h => hk h.symm)]
    rw [htk]
    cases getHeader mb.effHeaders k <;> rfl
  refine ⟨?_, h2, ?_⟩
  · intro p hp
    rw [ht]
    exact List.mem_append_left _ hp
  · intro v hv
    rw [h2 "X-Sentry-Reply-To" (by decide), hv]

/-- Witness: frame property at a concrete builder — the caller's
`X-Sentry-Reply-To` and `Other` headers survive `build` even though
`X-Sentry-Reply-To` is consumed for Reply-To determination. -/
theorem C10_frame_headers_witness :
    ("Other", "o") ∈ (mbX.build cfg0b ["a"]).headers
    ∧ getHeader (mbX.build cfg0b ["a"]).headers "X-Sentry-Reply-To" = some "x@y" :=
  ⟨(C10_frame_headers cfg0b mbX ["a"]).1 ("Other", "o") (by decide),
   (C10_frame_headers cfg0b mbX ["a"]).2.2 "x@y" rfl⟩

/-- C7: `send` equals `build` followed by handing the message to the
delivery collaborator; a delivery error is suppressed exactly when
`fail_silently` is true, and propagates unchanged when it is false. -/
theorem C7_send_delegates (cfg : BuildConfig) (deliver : EmailMessage → Except String Unit)
    (mb : MessageBuilder) (recipients : List String) :
    (MessageBuilder.send cfg deliver mb recipients false = deliver (mb.build cfg recipients))
    ∧ (∀ e, deliver (mb.build cfg recipients) = Except.error e →
        MessageBuilder.send cfg deliver mb recipients true = Except.ok ()
        ∧ MessageBuilder.send cfg deliver mb recipients false = Except.error e)
    ∧ (deliver (mb.build cfg recipients) = Except.ok () →
        ∀ fs, MessageBuilder.send cfg deliver mb recipients fs = Except.ok ()) := by
  refine ⟨?_, ?_, ?_⟩
  · rcases h : deliver (mb.build cfg recipients) with e | u
    · simp [MessageBuilder.send, deliverWith, h]
    · cases u
      simp [MessageBuilder.send, deliverWith, h]
  · intro e he
    exact ⟨by simp [MessageBuilder.send, deliverWith, he],
      by simp [MessageBuilder.send, deliverWith, he]⟩
  · intro h fs
    simp [MessageBuilder.send, deliverWith, h]

/-- Delivery collaborator that always fails, for the send witness. -/
def deliverBoom : EmailMessage → Except String Unit := fun _ => Except.error "boom"

/-- Witness: with an always-failing delivery collaborator, `send` with
`fail_silently = true` returns success and with `fail_silently = false`
propagates the error. -/
theorem C7_send_delegates_witness :
    MessageBuilder.send cfg0b deliverBoom mb0 ["a"] true = Except.ok ()
    ∧ MessageBuilder.send cfg0b deliverBoom mb0 ["a"] false = Except.error "boom" :=
  (C7_send_delegates cfg0b deliverBoom mb0 ["a"]).2.1 "boom" rfl

/-!
### Mutation-sensitive model of `build`

`build` copies `self.headers` (`self.headers.copy()`) and calls
`setdefault` on the copy.  To state that the builder's own mapping is
never mutated, dictionaries live in an explicit heap of dict cells and
the builder holds a reference; `buildH` performs exactly the source's
dict operations (fresh/copy allocation, then an in-place `setdefault` on
the allocated cell). -/

/-- A heap of dictionary cells, giving Python dicts identity. -/
structure Heap where
  size : Nat
  dicts : Nat → Headers

/-- Allocate a fresh dict cell holding `d`; returns the new heap and the
fresh reference. -/
def Heap.alloc (h : Heap) (d : Headers) : Heap × Nat :=
  ({ size := h.size + 1, dicts := fun i => if i = h.size then d else h.dicts i }, h.size)

/-- Overwrite the dict cell at `r` (an in-place dict update). -/
def Heap.setDict (h : Heap) (r : Nat) (d : Headers) : Heap :=
  { size := h.size, dicts := fun i => if i = r then d else h.dicts i }

/-- Builder state whose `headers` field is a dict reference. -/
structure MessageBuilderH where
  subject : String
  context : List (String × String)
  template : Option String
  html_template : Option String
  body : Option String
  html_body : Option String
  headersRef : Option Nat

/-- The value-level builder a referenced builder denotes once its headers
cell is read. -/
def MessageBuilderH.asPure (mb : MessageBuilderH) (hs : Option Headers) : MessageBuilder :=
  { subject := mb.subject
    context := mb.context
    template := mb.template
    html_template := mb.html_template
    body := mb.body
    html_body := mb.html_body
    headers := hs }

/-- Embedding of `MessageBuilder.build(to)` with explicit dict identity:
start from a fresh empty dict when `self.headers is None`, otherwise
from a copy of the referenced dict; `setdefault` mutates the allocated
cell only. -/
def MessageBuilderH.buildH (cfg : BuildConfig) (mb : MessageBuilderH) (heap : Heap)
    (recipients : List String) : EmailMessage × Heap :=
  let ar :=
    match mb.headersRef with
    | none => heap.alloc []
    | some r0 => heap.alloc (heap.dicts r0)
  let h1 := ar.1
  let r := ar.2
  let hs := h1.dicts r
  let reply_to :=
    if cfg.enableReplies && (getHeader hs "X-Sentry-Reply-To").isSome then
      (getHeader hs "X-Sentry-Reply-To").getD ""
    else
      String.intercalate ", " recipients
  let h2 :=
    if (getHeader hs "Reply-To").isSome then h1
    else h1.setDict r (hs ++ [("Reply-To", reply_to)])
  let headers1 := h2.dicts r
  let txt_body :=
    if truthy mb.template then some (cfg.render (mb.template.getD "") mb.context)
    else mb.body
  let html_body :=
    if truthy mb.html_template then some (cfg.render (mb.html_template.getD "") mb.context)
    else mb.html_body
  ({ subject := mb.subject
     body := txt_body
     from_email := cfg.serverEmail
     to_list := recipients
     headers := headers1
     alternatives :=
       if truthy html_body then [(cfg.inlineCss (html_body.getD ""), "text/html")]
       else [] }, h2)

lemma buildH_spec (cfg : BuildConfig) (mb : MessageBuilderH) (heap : Heap)
    (recipients : List String) (r0 : Nat) (hr : mb.headersRef = some r0)
    (hlt : r0 < heap.size) :
    (mb.buildH cfg heap recipients).2.dicts r0 = heap.dicts r0
    ∧ (mb.buildH cfg heap recipients).2.size = heap.size + 1
    ∧ (mb.buildH cfg heap recipients).1
        = (mb.asPure (some (heap.dicts r0))).build cfg recipients := by
  have hne : r0 ≠ heap.size := Nat.ne_of_lt hlt
  simp only [MessageBuilderH.buildH, hr, Heap.alloc, MessageBuilderH.asPure,
    MessageBuilder.build, MessageBuilder.effHeaders]
  by_cases hp : (getHeader (heap.dicts r0) "Reply-To").isSome
  · simp [hp, setdefault, hne]
  · simp [hp, setdefault, Heap.setDict, hne]

/-- C6: `build` is idempotent and side-effect-free — building twice with
the same recipients yields equal messages, and the builder's configured
headers dict is unchanged by either build (it is copied, not mutated in
place). -/
theorem C6_build_idempotent (cfg : BuildConfig) (mb : MessageBuilderH) (heap : Heap)
    (recipients : List String) (r0 : Nat) (hr : mb.headersRef = some r0)
    (hlt : r0 < heap.size) :
    (mb.buildH cfg heap recipients).2.dicts r0 = heap.dicts r0
    ∧ (mb.buildH cfg (mb.buildH cfg heap recipients).2 recipients).1
        = (mb.buildH cfg heap recipients).1
    ∧ (mb.buildH cfg (mb.buildH cfg heap recipients).2 recipients).2.dicts r0
        = heap.dicts r0 := by
  obtain ⟨hd1, hs1, hm1⟩ := buildH_spec cfg mb heap recipients r0 hr hlt
  have hlt2 : r0 < (mb.buildH cfg heap recipients).2.size := by
    rw [hs1]; omega
  obtain ⟨hd2, hs2, hm2⟩ := buildH_spec cfg mb (mb.buildH cfg heap recipients).2
      recipients r0 hr hlt2
  refine ⟨hd1, ?_, by rw [hd2, hd1]⟩
  rw [hm1, hm2, hd1]

/-- Concrete heap with one configured-headers dict cell. -/
def heap0 : Heap := { size := 1, dicts := fun _ => [("A", "B")] }

/-- Concrete referenced builder pointing at `heap0`'s cell 0. -/
def mbH0 : MessageBuilderH :=
  { subject := "s"
    context := []
    template := none
    html_template := none
    body := some "hello"
    html_body := none
    headersRef := some 0 }

/-- Witness: double build at a concrete builder/heap — both builds
return the same message and leave the configured dict cell untouched. -/
theorem C6_build_idempotent_witness :
    (mbH0.buildH cfg0b heap0 ["a"]).2.dicts 0 = heap0.dicts 0
    ∧ (mbH0.buildH cfg0b (mbH0.buildH cfg0b heap0 ["a"]).2 ["a"]).1
        = (mbH0.buildH cfg0b heap0 ["a"]).1
    ∧ (mbH0.buildH cfg0b (mbH0.buildH cfg0b heap0 ["a"]).2 ["a"]).2.dicts 0
        = heap0.dicts 0 :=
  C6_build_idempotent cfg0b mbH0 heap0 ["a"] 0 rfl (by decide)
